import Mathlib

/-!
Shallow embedding of the position-backend controller layer
(src/controllers/position.js together with the validators attached in
src/routes/position.js).

The document store (MongoDB via mongoose) is modelled as an explicit
`Store` value holding the `Position` and `User` collections as lists.
Each controller is a pure function from a pre-state, its request inputs
and a fault-injection record (which store or collaborator calls throw)
to an `OpResult`: the post-state, the HTTP response sent (if any), a
flag recording whether an uncaught exception escapes (crashing the
process), and the trace of store operations the controller issued.

A mongoose session transaction is modelled as atomic: if any write
inside it fails (`txnFails`), the transaction aborts and no write is
visible; otherwise all of its writes land together.
-/

namespace Positions

/-- A latitude/longitude pair, as produced by the geocoding collaborator
(`util/location`). Its numeric contents are irrelevant to the controllers. -/
structure Coord where
  lat : Int
  lng : Int
deriving DecidableEq, Repr

/-- The `Position` document (models/position): mongoose ObjectIds are
modelled as strings, matching the `toString()` comparisons in the code. -/
structure Position where
  id : String
  title : String
  description : String
  address : String
  location : Coord
  image : String
  creator : String
deriving DecidableEq, Repr

/-- The `User` document, restricted to the fields the position
controllers touch: its id and its `positions` array of Position ids. -/
structure User where
  id : String
  positions : List String
deriving DecidableEq, Repr

/-- The document store: the two collections the position controllers
read and write. -/
structure Store where
  positions : List Position
  users : List User
deriving DecidableEq, Repr

/-- An HTTP response: a JSON payload of positions (`res.json`/`res.status(..).json`),
a JSON message payload, or an `HttpError` passed to `next` (status, message). -/
inductive Http where
  | json : Nat → List Position → Http
  | jsonMsg : Nat → String → Http
  | error : Nat → String → Http
deriving DecidableEq, Repr

/-- A store operation issued by a controller, recorded in the trace. -/
inductive StoreOp where
  | findAll : StoreOp
  | findPos : String → StoreOp
  | findUsr : String → StoreOp
  | txn : StoreOp
  | save : String → StoreOp
  | unlink : String → StoreOp
deriving DecidableEq, Repr

/-- Result of running one controller: post-state, response sent (none if
the handler died before responding), whether an uncaught exception
escapes (crashing the process), and the trace of store operations issued. -/
structure OpResult where
  store : Store
  response : Option Http
  crashed : Bool
  ops : List StoreOp
deriving DecidableEq, Repr

/-- Fault injection: which fallible store/collaborator calls throw
during this request. -/
structure Faults where
  findPositionThrows : Bool
  findUserThrows : Bool
  geocodeThrows : Bool
  txnFails : Bool
  saveThrows : Bool
  unlinkFails : Bool
deriving DecidableEq, Repr

/-- No fault: every store and collaborator call succeeds. -/
def noFaults : Faults := ⟨false, false, false, false, false, false⟩

/-- Only the session transaction's writes fail. -/
def txnFault : Faults := ⟨false, false, false, true, false, false⟩

/-- Only the image-file unlink fails. -/
def unlinkFault : Faults := ⟨false, false, false, false, false, true⟩

/-- `Position.findById`: first document whose id matches. -/
def findPosition (st : Store) (id : String) : Option Position :=
  st.positions.find? (fun p => p.id == id)

/-- `User.findById`: first user document whose id matches. -/
def findUser (st : Store) (id : String) : Option User :=
  st.users.find? (fun u => u.id == id)

/-- The validators the router attaches to POST / (create):
`title` non-empty, `description` length at least 5, `address` non-empty. -/
def createValid (title description address : String) : Bool :=
  !title.isEmpty && decide (5 ≤ description.length) && !address.isEmpty

/-- The validators the router attaches to PUT /:id (update):
`title` non-empty, `description` length at least 5. -/
def updateValid (title description : String) : Bool :=
  !title.isEmpty && decide (5 ≤ description.length)

/-- `user.positions.push(createdPosition)` followed by `user.save`:
the user with the given id gains the new position id at the end of its
`positions` array; all other users are untouched. -/
def pushUser (users : List User) (requesterId newId : String) : List User :=
  users.map (fun u =>
    if u.id == requesterId then { u with positions := u.positions ++ [newId] } else u)

/-- `position.creator.positions.pull(position)` followed by `creator.save`:
the owner loses every occurrence of the position id from its `positions`
array; all other users are untouched. -/
def pullUser (users : List User) (ownerId positionId : String) : List User :=
  users.map (fun u =>
    if u.id == ownerId then
      { u with positions := u.positions.filter (fun q => q != positionId) }
    else u)

/-- Overwriting `title` and `description` of the position document with
the given id and saving it; every other field and document is untouched. -/
def setPosition (ps : List Position) (positionId title description : String) :
    List Position :=
  ps.map (fun p =>
    if p.id == positionId then { p with title := title, description := description } else p)

/-- `position.remove`: the document with the given id is deleted. -/
def removePosition (ps : List Position) (positionId : String) : List Position :=
  ps.filter (fun p => p.id != positionId)

/-- `create` (src/controllers/position.js, lines 88-146).
`title`, `description`, `address` come from the request body, `imagePath`
from the upstream file upload, `requesterId` from the auth middleware;
`newId` is the fresh ObjectId mongoose mints for the new document and
`coords` is the value the geocoding collaborator returns when it succeeds. -/
def create (st : Store) (title description address imagePath requesterId newId : String)
    (coords : Coord) (f : Faults) : OpResult :=
  if !(createValid title description address) then
    ⟨st, some (.error 422 "Invalid inputs passed, please check your data."), false, []⟩
  else if f.geocodeThrows then
    -- getCoordsForAddress threw: its own HttpError is forwarded to next.
    ⟨st, some (.error 500 "geocoding failed"), false, []⟩
  else if f.findUserThrows then
    ⟨st, some (.error 500 "Creating position failed, please try again."), false,
      [.findUsr requesterId]⟩
  else
    match findUser st requesterId with
    | none =>
      ⟨st, some (.error 404 "Could not find user for provided id."), false,
        [.findUsr requesterId]⟩
    | some _ =>
      if f.txnFails then
        -- the session transaction aborted: neither write is visible.
        ⟨st, some (.error 500 "Creating position failed, please try again."), false,
          [.findUsr requesterId, .txn]⟩
      else
        let newPos : Position :=
          ⟨newId, title, description, address, coords, imagePath, requesterId⟩
        ⟨⟨st.positions ++ [newPos], pushUser st.users requesterId newId⟩,
          some (.json 201 [newPos]), false, [.findUsr requesterId, .txn]⟩

/-- `update` (src/controllers/position.js, lines 148-189).
Note: the code has no null check after `Position.findById`; when the
lookup returns no document, `position.creator.toString()` throws a
TypeError that no handler catches, so no response is sent and the
rejection escapes the handler. -/
def update (st : Store) (positionId title description requesterId : String)
    (f : Faults) : OpResult :=
  if !(updateValid title description) then
    ⟨st, some (.error 422 "Invalid inputs passed, please check your data."), false, []⟩
  else if f.findPositionThrows then
    ⟨st, some (.error 500 "Something went wrong, could not update position."), false,
      [.findPos positionId]⟩
  else
    match findPosition st positionId with
    | none =>
      -- TypeError: cannot read properties of null (reading creator)
      ⟨st, none, true, [.findPos positionId]⟩
    | some p =>
      if p.creator != requesterId then
        ⟨st, some (.error 401 "You are not allowed to edit this position."), false,
          [.findPos positionId]⟩
      else if f.saveThrows then
        ⟨st, some (.error 500 "Something went wrong, could not update position."), false,
          [.findPos positionId, .save positionId]⟩
      else
        ⟨⟨setPosition st.positions positionId title description, st.users⟩,
          some (.json 200 [{ p with title := title, description := description }]), false,
          [.findPos positionId, .save positionId]⟩

/-- `del` (src/controllers/position.js, lines 191-240).
`findById(..).populate('creator')` is modelled by also resolving the
creator user document; a dangling creator reference makes
`position.creator.id` throw, like the missing null check it is.
After the transaction commits, `fs.unlink` runs; its callback rethrows
any error, which crashes the process (the 200 response is already sent). -/
def del (st : Store) (positionId requesterId : String) (f : Faults) : OpResult :=
  if f.findPositionThrows then
    ⟨st, some (.error 500 "Something went wrong, could not delete position."), false,
      [.findPos positionId]⟩
  else
    match findPosition st positionId with
    | none =>
      ⟨st, some (.error 404 "Could not find position for this id."), false,
        [.findPos positionId]⟩
    | some p =>
      match findUser st p.creator with
      | none =>
        -- populate left creator null: TypeError reading .id
        ⟨st, none, true, [.findPos positionId]⟩
      | some owner =>
        if owner.id != requesterId then
          ⟨st, some (.error 401 "You are not allowed to delete this position."), false,
            [.findPos positionId]⟩
        else if f.txnFails then
          -- the session transaction aborted: neither write is visible.
          ⟨st, some (.error 500 "Something went wrong, could not delete position."), false,
            [.findPos positionId, .txn]⟩
        else
          ⟨⟨removePosition st.positions positionId, pullUser st.users owner.id positionId⟩,
            some (.jsonMsg 200 "Deleted position."), f.unlinkFails,
            [.findPos positionId, .txn, .unlink p.image]⟩

/-- `getAllPositions` (lines 11-34). -/
def getAllPositions (st : Store) (f : Faults) : OpResult :=
  if f.findPositionThrows then
    ⟨st, some (.error 500 "Fetching positions failed, please try again later."), false,
      [.findAll]⟩
  else if st.positions.isEmpty then
    ⟨st, some (.error 404 "Could not find any positions."), false, [.findAll]⟩
  else
    ⟨st, some (.json 200 st.positions), false, [.findAll]⟩

/-- `getPositionById` (lines 36-59). -/
def getPositionById (st : Store) (positionId : String) (f : Faults) : OpResult :=
  if f.findPositionThrows then
    ⟨st, some (.error 500 "Something went wrong, could not find a position."), false,
      [.findPos positionId]⟩
  else
    match findPosition st positionId with
    | none =>
      ⟨st, some (.error 404 "Could not find position for the provided id."), false,
        [.findPos positionId]⟩
    | some p => ⟨st, some (.json 200 [p]), false, [.findPos positionId]⟩

/-- `getPositionsByUserId` (lines 61-86): `populate('positions')` resolves
each referenced position document, dropping dangling references. -/
def getPositionsByUserId (st : Store) (userId : String) (f : Faults) : OpResult :=
  if f.findUserThrows then
    ⟨st, some (.error 500 "Fetching positions failed, please try again later."), false,
      [.findUsr userId]⟩
  else
    match findUser st userId with
    | none =>
      ⟨st, some (.error 404 "Could not find positions for the provided user id."), false,
        [.findUsr userId]⟩
    | some u =>
      let populated := u.positions.filterMap (fun pid => findPosition st pid)
      if populated.isEmpty then
        ⟨st, some (.error 404 "Could not find positions for the provided user id."), false,
          [.findUsr userId]⟩
      else
        ⟨st, some (.json 200 populated), false, [.findUsr userId]⟩

/-- Direction 1 of the spec invariant: every existing Position's creator
references a User whose `positions` set contains that Position's id. -/
def leftInv (st : Store) : Prop :=
  ∀ p ∈ st.positions, ∃ u ∈ st.users, u.id = p.creator ∧ p.id ∈ u.positions

/-- Direction 2 of the spec invariant: every entry of any User's
`positions` set references an existing Position whose creator is that User. -/
def rightInv (st : Store) : Prop :=
  ∀ u ∈ st.users, ∀ pid ∈ u.positions, ∃ p ∈ st.positions, p.id = pid ∧ p.creator = u.id

/-- The bidirectional Position/User invariant of spec section 3. -/
def invariant (st : Store) : Prop := leftInv st ∧ rightInv st

/-- Store well-formedness: document ids are unique within each collection
(MongoDB guarantees this for `_id`). -/
def wf (st : Store) : Prop :=
  (st.positions.map Position.id).Nodup ∧ (st.users.map User.id).Nodup

instance (st : Store) : Decidable (leftInv st) := by
  unfold leftInv; infer_instance

instance (st : Store) : Decidable (rightInv st) := by
  unfold rightInv; infer_instance

instance (st : Store) : Decidable (invariant st) := by
  unfold invariant; infer_instance

instance (st : Store) : Decidable (wf st) := by
  unfold wf; infer_instance

/-- Sample store used as the concrete witness input: one user owning one
position (the spec section 8 scenario). -/
def samplePos : Position :=
  ⟨"p1", "Cafe", "Nice spot downtown", "1 Main St", ⟨40, -73⟩, "uploads/images/p1.png", "u1"⟩

def sampleUser : User := ⟨"u1", ["p1"]⟩

def sampleStore : Store := ⟨[samplePos], [sampleUser]⟩

/-! ### Basic facts about the store lookups -/

lemma findUser_mem {st : Store} {u : User} {id : String}
    (h : findUser st id = some u) : u ∈ st.users ∧ u.id = id := by
  unfold findUser at h
  refine ⟨List.mem_of_find?_eq_some h, ?_⟩
  have := List.find?_some h
  simpa using this

lemma findPosition_mem {st : Store} {p : Position} {id : String}
    (h : findPosition st id = some p) : p ∈ st.positions ∧ p.id = id := by
  unfold findPosition at h
  refine ⟨List.mem_of_find?_eq_some h, ?_⟩
  have := List.find?_some h
  simpa using this

/-! ### Invariant preservation for the three store transformations -/

lemma invariant_push (st : Store) (pos : Position)
    (hinv : invariant st) (hu : ∃ u ∈ st.users, u.id = pos.creator) :
    invariant ⟨st.positions ++ [pos], pushUser st.users pos.creator pos.id⟩ := by
  obtain ⟨hL, hR⟩ := hinv
  constructor
  · intro q hq
    rcases List.mem_append.mp hq with hq | hq
    · obtain ⟨u, hu', hid, hm⟩ := hL q hq
      by_cases hc : (u.id == pos.creator) = true
      · refine ⟨⟨u.id, u.positions ++ [pos.id]⟩, ?_, hid, List.mem_append_left _ hm⟩
        exact List.mem_map.mpr ⟨u, hu', if_pos hc⟩
      · refine ⟨u, ?_, hid, hm⟩
        exact List.mem_map.mpr ⟨u, hu', if_neg hc⟩
    · have hq' : q = pos := List.mem_singleton.mp hq
      subst hq'
      obtain ⟨u, hu', hid⟩ := hu
      have hc : (u.id == q.creator) = true := beq_iff_eq.mpr hid
      refine ⟨⟨u.id, u.positions ++ [q.id]⟩, ?_, hid, ?_⟩
      · exact List.mem_map.mpr ⟨u, hu', if_pos hc⟩
      · exact List.mem_append_right _ (List.mem_singleton.mpr rfl)
  · intro u' hu' pid hpid
    unfold pushUser at hu'
    obtain ⟨u, hu0, rfl⟩ := List.mem_map.mp hu'
    by_cases hc : (u.id == pos.creator) = true
    · rw [if_pos hc] at hpid ⊢
      rcases List.mem_append.mp hpid with hold | hnew
      · obtain ⟨p', hp', hid', hcr'⟩ := hR u hu0 pid hold
        exact ⟨p', List.mem_append_left _ hp', hid', hcr'⟩
      · have hpe : pid = pos.id := List.mem_singleton.mp hnew
        subst hpe
        refine ⟨pos, List.mem_append_right _ (List.mem_singleton.mpr rfl), rfl, ?_⟩
        exact (beq_iff_eq.mp hc).symm
    · rw [if_neg hc] at hpid ⊢
      obtain ⟨p', hp', hid', hcr'⟩ := hR u hu0 pid hpid
      exact ⟨p', List.mem_append_left _ hp', hid', hcr'⟩

lemma invariant_set (st : Store) (positionId title description : String)
    (hinv : invariant st) :
    invariant ⟨setPosition st.positions positionId title description, st.users⟩ := by
  obtain ⟨hL, hR⟩ := hinv
  constructor
  · intro q' hq'
    unfold setPosition at hq'
    obtain ⟨q, hq, rfl⟩ := List.mem_map.mp hq'
    obtain ⟨u, hu, hid, hm⟩ := hL q hq
    by_cases hc : (q.id == positionId) = true
    · rw [if_pos hc]
      exact ⟨u, hu, hid, hm⟩
    · rw [if_neg hc]
      exact ⟨u, hu, hid, hm⟩
  · intro u hu pid hpid
    obtain ⟨p, hp, hid, hcr⟩ := hR u hu pid hpid
    by_cases hc : (p.id == positionId) = true
    · refine ⟨⟨p.id, title, description, p.address, p.location, p.image, p.creator⟩,
        ?_, hid, hcr⟩
      exact List.mem_map.mpr ⟨p, hp, if_pos hc⟩
    · refine ⟨p, ?_, hid, hcr⟩
      exact List.mem_map.mpr ⟨p, hp, if_neg hc⟩

lemma invariant_remove (st : Store) (positionId : String) (p : Position) (owner : User)
    (hn : (st.positions.map Position.id).Nodup)
    (hinv : invariant st)
    (hp : findPosition st positionId = some p)
    (ho : findUser st p.creator = some owner) :
    invariant ⟨removePosition st.positions positionId,
      pullUser st.users owner.id positionId⟩ := by
  obtain ⟨hL, hR⟩ := hinv
  obtain ⟨hpmem, hpID⟩ := findPosition_mem hp
  obtain ⟨homem, hoid⟩ := findUser_mem ho
  constructor
  · intro q hq
    unfold removePosition at hq
    obtain ⟨hqmem, hqne⟩ := List.mem_filter.mp hq
    have hqne' : q.id ≠ positionId := by simpa using hqne
    obtain ⟨u, hu, hid, hm⟩ := hL q hqmem
    by_cases hc : (u.id == owner.id) = true
    · refine ⟨⟨u.id, u.positions.filter (fun r => r != positionId)⟩, ?_, hid, ?_⟩
      · exact List.mem_map.mpr ⟨u, hu, if_pos hc⟩
      · exact List.mem_filter.mpr ⟨hm, by simpa using hqne'⟩
    · refine ⟨u, ?_, hid, hm⟩
      exact List.mem_map.mpr ⟨u, hu, if_neg hc⟩
  · intro u' hu' pid hpid
    unfold pullUser at hu'
    obtain ⟨u, hu0, rfl⟩ := List.mem_map.mp hu'
    by_cases hc : (u.id == owner.id) = true
    · rw [if_pos hc] at hpid ⊢
      obtain ⟨hold, hne⟩ := List.mem_filter.mp hpid
      have hne' : pid ≠ positionId := by simpa using hne
      obtain ⟨p', hp', hid', hcr'⟩ := hR u hu0 pid hold
      refine ⟨p', ?_, hid', hcr'⟩
      exact List.mem_filter.mpr ⟨hp', by simpa [hid'] using hne'⟩
    · rw [if_neg hc] at hpid ⊢
      obtain ⟨p', hp', hid', hcr'⟩ := hR u hu0 pid hpid
      have hne : p'.id ≠ positionId := by
        intro heq
        have hpp : p' = p := by
          apply List.inj_on_of_nodup_map hn hp' hpmem
          rw [heq, hpID]
        have hcontr : u.id = owner.id := by
          rw [← hcr', hpp, ← hoid]
        exact hc (beq_iff_eq.mpr hcontr)
      refine ⟨p', ?_, hid', hcr'⟩
      exact List.mem_filter.mpr ⟨hp', by simpa [hid'] using hne⟩

/-! ### Branch characterization of each controller's post-state -/

lemma create_store_cases (st : Store)
    (title description address imagePath requesterId newId : String)
    (coords : Coord) (f : Faults) :
    (create st title description address imagePath requesterId newId coords f).store = st ∨
    (∃ u, findUser st requesterId = some u ∧ f.txnFails = false ∧
      (create st title description address imagePath requesterId newId coords f).store =
        ⟨st.positions ++ [⟨newId, title, description, address, coords, imagePath, requesterId⟩],
          pushUser st.users requesterId newId⟩) := by
  unfold create
  split
  · exact Or.inl rfl
  · split
    · exact Or.inl rfl
    · split
      · exact Or.inl rfl
      · split
        · exact Or.inl rfl
        · next u heq =>
          split
          · exact Or.inl rfl
          · next htx => exact Or.inr ⟨u, heq, by simpa using htx, rfl⟩

lemma update_store_cases (st : Store)
    (positionId title description requesterId : String) (f : Faults) :
    (update st positionId title description requesterId f).store = st ∨
    (∃ p, findPosition st positionId = some p ∧ p.creator = requesterId ∧
      (update st positionId title description requesterId f).store =
        ⟨setPosition st.positions positionId title description, st.users⟩) := by
  unfold update
  split
  · exact Or.inl rfl
  · split
    · exact Or.inl rfl
    · split
      · exact Or.inl rfl
      · next p heq =>
        split
        · exact Or.inl rfl
        · next hcr =>
          split
          · exact Or.inl rfl
          · exact Or.inr ⟨p, heq, by simpa using hcr, rfl⟩

lemma del_store_cases (st : Store) (positionId requesterId : String) (f : Faults) :
    (del st positionId requesterId f).store = st ∨
    (∃ p owner, findPosition st positionId = some p ∧
      findUser st p.creator = some owner ∧ owner.id = requesterId ∧ f.txnFails = false ∧
      (del st positionId requesterId f).store =
        ⟨removePosition st.positions positionId,
          pullUser st.users owner.id positionId⟩) := by
  unfold del
  split
  · exact Or.inl rfl
  · split
    · exact Or.inl rfl
    · next p heqp =>
      split
      · exact Or.inl rfl
      · next owner heqo =>
        split
        · exact Or.inl rfl
        · next hid =>
          split
          · exact Or.inl rfl
          · next htx =>
            exact Or.inr ⟨p, owner, heqp, heqo, by simpa using hid, by simpa using htx, rfl⟩

lemma create_cases (st : Store)
    (title description address imagePath requesterId newId : String)
    (coords : Coord) (f : Faults) :
    create st title description address imagePath requesterId newId coords f =
        ⟨st, some (.error 422 "Invalid inputs passed, please check your data."), false, []⟩ ∨
    create st title description address imagePath requesterId newId coords f =
        ⟨st, some (.error 500 "geocoding failed"), false, []⟩ ∨
    create st title description address imagePath requesterId newId coords f =
        ⟨st, some (.error 500 "Creating position failed, please try again."), false,
          [.findUsr requesterId]⟩ ∨
    create st title description address imagePath requesterId newId coords f =
        ⟨st, some (.error 404 "Could not find user for provided id."), false,
          [.findUsr requesterId]⟩ ∨
    create st title description address imagePath requesterId newId coords f =
        ⟨st, some (.error 500 "Creating position failed, please try again."), false,
          [.findUsr requesterId, .txn]⟩ ∨
    (∃ u, findUser st requesterId = some u ∧ f.txnFails = false ∧
      create st title description address imagePath requesterId newId coords f =
        ⟨⟨st.positions ++ [⟨newId, title, description, address, coords, imagePath, requesterId⟩],
            pushUser st.users requesterId newId⟩,
          some (.json 201 [⟨newId, title, description, address, coords, imagePath, requesterId⟩]),
          false, [.findUsr requesterId, .txn]⟩) := by
  unfold create
  split
  · exact Or.inl rfl
  · split
    · exact Or.inr (Or.inl rfl)
    · split
      · exact Or.inr (Or.inr (Or.inl rfl))
      · split
        · exact Or.inr (Or.inr (Or.inr (Or.inl rfl)))
        · next u heq =>
          split
          · exact Or.inr (Or.inr (Or.inr (Or.inr (Or.inl rfl))))
          · next htx =>
            exact Or.inr (Or.inr (Or.inr (Or.inr (Or.inr
              ⟨u, heq, by simpa using htx, rfl⟩))))

lemma update_cases (st : Store)
    (positionId title description requesterId : String) (f : Faults) :
    update st positionId title description requesterId f =
        ⟨st, some (.error 422 "Invalid inputs passed, please check your data."), false, []⟩ ∨
    update st positionId title description requesterId f =
        ⟨st, some (.error 500 "Something went wrong, could not update position."), false,
          [.findPos positionId]⟩ ∨
    (findPosition st positionId = none ∧
      update st positionId title description requesterId f =
        ⟨st, none, true, [.findPos positionId]⟩) ∨
    (∃ p, findPosition st positionId = some p ∧ p.creator ≠ requesterId ∧
      update st positionId title description requesterId f =
        ⟨st, some (.error 401 "You are not allowed to edit this position."), false,
          [.findPos positionId]⟩) ∨
    (∃ p, findPosition st positionId = some p ∧ p.creator = requesterId ∧
      update st positionId title description requesterId f =
        ⟨st, some (.error 500 "Something went wrong, could not update position."), false,
          [.findPos positionId, .save positionId]⟩) ∨
    (∃ p, findPosition st positionId = some p ∧ p.creator = requesterId ∧
      update st positionId title description requesterId f =
        ⟨⟨setPosition st.positions positionId title description, st.users⟩,
          some (.json 200
            [⟨p.id, title, description, p.address, p.location, p.image, p.creator⟩]),
          false, [.findPos positionId, .save positionId]⟩) := by
  unfold update
  split
  · exact Or.inl rfl
  · split
    · exact Or.inr (Or.inl rfl)
    · split
      · next heq => exact Or.inr (Or.inr (Or.inl ⟨heq, rfl⟩))
      · next p heq =>
        split
        · next hcr =>
          exact Or.inr (Or.inr (Or.inr (Or.inl ⟨p, heq, by simpa using hcr, rfl⟩)))
        · next hcr =>
          split
          · exact Or.inr (Or.inr (Or.inr (Or.inr (Or.inl
              ⟨p, heq, by simpa using hcr, rfl⟩))))
          · exact Or.inr (Or.inr (Or.inr (Or.inr (Or.inr
              ⟨p, heq, by simpa using hcr, rfl⟩))))

lemma del_cases (st : Store) (positionId requesterId : String) (f : Faults) :
    del st positionId requesterId f =
        ⟨st, some (.error 500 "Something went wrong, could not delete position."), false,
          [.findPos positionId]⟩ ∨
    (findPosition st positionId = none ∧
      del st positionId requesterId f =
        ⟨st, some (.error 404 "Could not find position for this id."), false,
          [.findPos positionId]⟩) ∨
    (∃ p, findPosition st positionId = some p ∧ findUser st p.creator = none ∧
      del st positionId requesterId f = ⟨st, none, true, [.findPos positionId]⟩) ∨
    (∃ p owner, findPosition st positionId = some p ∧
      findUser st p.creator = some owner ∧ owner.id ≠ requesterId ∧
      del st positionId requesterId f =
        ⟨st, some (.error 401 "You are not allowed to delete this position."), false,
          [.findPos positionId]⟩) ∨
    (∃ p owner, findPosition st positionId = some p ∧
      findUser st p.creator = some owner ∧ owner.id = requesterId ∧
      del st positionId requesterId f =
        ⟨st, some (.error 500 "Something went wrong, could not delete position."), false,
          [.findPos positionId, .txn]⟩) ∨
    (∃ p owner, findPosition st positionId = some p ∧
      findUser st p.creator = some owner ∧ owner.id = requesterId ∧ f.txnFails = false ∧
      del st positionId requesterId f =
        ⟨⟨removePosition st.positions positionId, pullUser st.users owner.id positionId⟩,
          some (.jsonMsg 200 "Deleted position."), f.unlinkFails,
          [.findPos positionId, .txn, .unlink p.image]⟩) := by
  unfold del
  split
  · exact Or.inl rfl
  · split
    · next heq => exact Or.inr (Or.inl ⟨heq, rfl⟩)
    · next p heqp =>
      split
      · next heqo => exact Or.inr (Or.inr (Or.inl ⟨p, heqp, heqo, rfl⟩))
      · next owner heqo =>
        split
        · next hid =>
          exact Or.inr (Or.inr (Or.inr (Or.inl
            ⟨p, owner, heqp, heqo, by simpa using hid, rfl⟩)))
        · next hid =>
          split
          · exact Or.inr (Or.inr (Or.inr (Or.inr (Or.inl
              ⟨p, owner, heqp, heqo, by simpa using hid, rfl⟩))))
          · next htx =>
            exact Or.inr (Or.inr (Or.inr (Or.inr (Or.inr
              ⟨p, owner, heqp, heqo, by simpa using hid, by simpa using htx, rfl⟩))))

lemma getAllPositions_store (st : Store) (f : Faults) :
    (getAllPositions st f).store = st := by
  unfold getAllPositions
  split
  · rfl
  · split <;> rfl

lemma getPositionById_store (st : Store) (positionId : String) (f : Faults) :
    (getPositionById st positionId f).store = st := by
  unfold getPositionById
  split
  · rfl
  · split <;> rfl

lemma getPositionsByUserId_store (st : Store) (userId : String) (f : Faults) :
    (getPositionsByUserId st userId f).store = st := by
  unfold getPositionsByUserId
  split
  · rfl
  · split
    · rfl
    · dsimp only
      split <;> rfl

/-! ### Claim theorems -/

/-- C1: each existing Position's creator references a User whose `positions` set
contains that Position's id, and each entry in any User's `positions` set
references an existing Position whose creator is that User; every operation
(create, update, del, and the three read paths) preserves this bidirectional
invariant, for any well-formed store and any fault pattern. -/
theorem ops_preserve_invariant
    (st : Store) (hwf : wf st) (hinv : invariant st)
    (title description address imagePath requesterId newId positionId userId : String)
    (coords : Coord) (f : Faults) :
    invariant (create st title description address imagePath requesterId newId coords f).store ∧
    invariant (update st positionId title description requesterId f).store ∧
    invariant (del st positionId requesterId f).store ∧
    invariant (getAllPositions st f).store ∧
    invariant (getPositionById st positionId f).store ∧
    invariant (getPositionsByUserId st userId f).store := by
  refine ⟨?_, ?_, ?_, ?_, ?_, ?_⟩
  · rcases create_store_cases st title description address imagePath requesterId newId
      coords f with h | ⟨u, hu, _, h⟩
    · rw [h]; exact hinv
    · rw [h]
      exact invariant_push st
        ⟨newId, title, description, address, coords, imagePath, requesterId⟩ hinv
        ⟨u, (findUser_mem hu).1, (findUser_mem hu).2⟩
  · rcases update_store_cases st positionId title description requesterId f with
      h | ⟨p, hp, _, h⟩
    · rw [h]; exact hinv
    · rw [h]; exact invariant_set st positionId title description hinv
  · rcases del_store_cases st positionId requesterId f with
      h | ⟨p, owner, hp, ho, _, _, h⟩
    · rw [h]; exact hinv
    · rw [h]; exact invariant_remove st positionId p owner hwf.1 hinv hp ho
  · rw [getAllPositions_store]; exact hinv
  · rw [getPositionById_store]; exact hinv
  · rw [getPositionsByUserId_store]; exact hinv

/-- Witness for C1 at the concrete sample store. -/
theorem ops_preserve_invariant_witness :
    invariant (create sampleStore "Bar" "A nice bar" "2 Main St" "uploads/images/p2.png"
      "u1" "p2" ⟨1, 2⟩ noFaults).store ∧
    invariant (update sampleStore "p1" "Bar" "A nice bar" "u1" noFaults).store ∧
    invariant (del sampleStore "p1" "u1" noFaults).store ∧
    invariant (getAllPositions sampleStore noFaults).store ∧
    invariant (getPositionById sampleStore "p1" noFaults).store ∧
    invariant (getPositionsByUserId sampleStore "u1" noFaults).store :=
  ops_preserve_invariant sampleStore (by decide) (by decide)
    "Bar" "A nice bar" "2 Main St" "uploads/images/p2.png" "u1" "p2" "p1" "u1"
    ⟨1, 2⟩ noFaults

/-- C2: every successful create call returns status 201 carrying the created
Position, whose creator is the requester id, and in the post-state the user
identified by the requester id holds the new Position's id in its `positions`. -/
theorem create_success_spec
    (st : Store) (title description address imagePath requesterId newId : String)
    (coords : Coord) (f : Faults) (s : Nat) (body : List Position)
    (h : (create st title description address imagePath requesterId newId coords f).response
      = some (Http.json s body)) :
    s = 201 ∧
    ∃ pos, body = [pos] ∧ pos.creator = requesterId ∧ pos.id = newId ∧
      ∃ u ∈ (create st title description address imagePath requesterId newId
        coords f).store.users, u.id = requesterId ∧ newId ∈ u.positions := by
  rcases create_cases st title description address imagePath requesterId newId coords f
    with h1 | h1 | h1 | h1 | h1 | ⟨u, hu, htx, h1⟩
  · rw [h1] at h; simp at h
  · rw [h1] at h; simp at h
  · rw [h1] at h; simp at h
  · rw [h1] at h; simp at h
  · rw [h1] at h; simp at h
  · rw [h1] at h ⊢
    simp only [Option.some.injEq, Http.json.injEq] at h
    obtain ⟨hs, hb⟩ := h
    obtain ⟨hmem, hid⟩ := findUser_mem hu
    have hc : (u.id == requesterId) = true := beq_iff_eq.mpr hid
    refine ⟨hs.symm, ⟨newId, title, description, address, coords, imagePath, requesterId⟩,
      hb.symm, rfl, rfl, ⟨u.id, u.positions ++ [newId]⟩, ?_, hid, ?_⟩
    · exact List.mem_map.mpr ⟨u, hmem, if_pos hc⟩
    · exact List.mem_append_right _ (List.mem_singleton.mpr rfl)

/-- Witness for C2: the spec section 8 scenario (user u1 creates a position). -/
theorem create_success_spec_witness :
    201 = 201 ∧
    ∃ pos, [(⟨"p2", "Cafe", "Nice spot downtown", "2 Main St", ⟨1, 2⟩,
        "uploads/images/p2.png", "u1"⟩ : Position)] = [pos] ∧
      pos.creator = "u1" ∧ pos.id = "p2" ∧
      ∃ u ∈ (create sampleStore "Cafe" "Nice spot downtown" "2 Main St"
        "uploads/images/p2.png" "u1" "p2" ⟨1, 2⟩ noFaults).store.users,
        u.id = "u1" ∧ "p2" ∈ u.positions :=
  create_success_spec sampleStore "Cafe" "Nice spot downtown" "2 Main St"
    "uploads/images/p2.png" "u1" "p2" ⟨1, 2⟩ noFaults 201
    [⟨"p2", "Cafe", "Nice spot downtown", "2 Main St", ⟨1, 2⟩,
      "uploads/images/p2.png", "u1"⟩] (by decide)

/-- C3: for both create and del, the Position write and the User.positions
write land together or not at all: the post-state is either the untouched
pre-state or the state with both writes applied, and when the transaction's
writes fail the store is unchanged and a generic 500 error is returned. -/
theorem create_del_atomic
    (st : Store) (title description address imagePath requesterId newId : String)
    (coords : Coord) (positionId delRequesterId : String) (f : Faults) :
    ((create st title description address imagePath requesterId newId coords f).store = st ∨
      (create st title description address imagePath requesterId newId coords f).store =
        ⟨st.positions ++ [⟨newId, title, description, address, coords, imagePath, requesterId⟩],
          pushUser st.users requesterId newId⟩) ∧
    (StoreOp.txn ∈ (create st title description address imagePath requesterId newId
        coords f).ops → f.txnFails = true →
      (create st title description address imagePath requesterId newId coords f).store = st ∧
      (create st title description address imagePath requesterId newId coords f).response =
        some (Http.error 500 "Creating position failed, please try again.")) ∧
    ((del st positionId delRequesterId f).store = st ∨
      ∃ owner : User, (del st positionId delRequesterId f).store =
        ⟨removePosition st.positions positionId,
          pullUser st.users owner.id positionId⟩) ∧
    (StoreOp.txn ∈ (del st positionId delRequesterId f).ops → f.txnFails = true →
      (del st positionId delRequesterId f).store = st ∧
      (del st positionId delRequesterId f).response =
        some (Http.error 500 "Something went wrong, could not delete position.")) := by
  refine ⟨?_, ?_, ?_, ?_⟩
  · rcases create_store_cases st title description address imagePath requesterId newId
      coords f with h | ⟨u, _, _, h⟩
    · exact Or.inl h
    · exact Or.inr h
  · rcases create_cases st title description address imagePath requesterId newId coords f
      with h1 | h1 | h1 | h1 | h1 | ⟨u, hu, htx, h1⟩ <;> rw [h1]
    · intro hmem; simp at hmem
    · intro hmem; simp at hmem
    · intro hmem; simp at hmem
    · intro hmem; simp at hmem
    · exact fun _ _ => ⟨rfl, rfl⟩
    · intro _ htx'
      rw [htx] at htx'
      exact absurd htx' (by simp)
  · rcases del_store_cases st positionId delRequesterId f with
      h | ⟨p, owner, _, _, _, _, h⟩
    · exact Or.inl h
    · exact Or.inr ⟨owner, h⟩
  · rcases del_cases st positionId delRequesterId f with
      h1 | ⟨_, h1⟩ | ⟨p, hp, ho, h1⟩ | ⟨p, owner, hp, ho, hne, h1⟩ |
      ⟨p, owner, hp, ho, hid, h1⟩ | ⟨p, owner, hp, ho, hid, htx, h1⟩ <;> rw [h1]
    · intro hmem; simp at hmem
    · intro hmem; simp at hmem
    · intro hmem; simp at hmem
    · intro hmem; simp at hmem
    · exact fun _ _ => ⟨rfl, rfl⟩
    · intro _ htx'
      rw [htx] at htx'
      exact absurd htx' (by simp)

/-- Witness for C3: with the transaction failing, both create and del leave
the sample store untouched and report the generic 500 errors. -/
theorem create_del_atomic_witness :
    (create sampleStore "Bar" "A nice bar" "2 Main St" "uploads/images/p2.png"
      "u1" "p2" ⟨1, 2⟩ txnFault).store = sampleStore ∧
    (create sampleStore "Bar" "A nice bar" "2 Main St" "uploads/images/p2.png"
      "u1" "p2" ⟨1, 2⟩ txnFault).response =
      some (Http.error 500 "Creating position failed, please try again.") ∧
    (del sampleStore "p1" "u1" txnFault).store = sampleStore ∧
    (del sampleStore "p1" "u1" txnFault).response =
      some (Http.error 500 "Something went wrong, could not delete position.") :=
  ⟨((create_del_atomic sampleStore "Bar" "A nice bar" "2 Main St"
      "uploads/images/p2.png" "u1" "p2" ⟨1, 2⟩ "p1" "u1" txnFault).2.1
      (by decide) (by decide)).1,
   ((create_del_atomic sampleStore "Bar" "A nice bar" "2 Main St"
      "uploads/images/p2.png" "u1" "p2" ⟨1, 2⟩ "p1" "u1" txnFault).2.1
      (by decide) (by decide)).2,
   ((create_del_atomic sampleStore "Bar" "A nice bar" "2 Main St"
      "uploads/images/p2.png" "u1" "p2" ⟨1, 2⟩ "p1" "u1" txnFault).2.2.2
      (by decide) (by decide)).1,
   ((create_del_atomic sampleStore "Bar" "A nice bar" "2 Main St"
      "uploads/images/p2.png" "u1" "p2" ⟨1, 2⟩ "p1" "u1" txnFault).2.2.2
      (by decide) (by decide)).2⟩

/-- C4: after every successful del, the Position no longer exists and no user
whose id is the requester's (in particular the owner) still references it. -/
theorem del_success_spec
    (st : Store) (positionId requesterId : String) (f : Faults) (s : Nat) (m : String)
    (h : (del st positionId requesterId f).response = some (Http.jsonMsg s m)) :
    s = 200 ∧ m = "Deleted position." ∧
    findPosition (del st positionId requesterId f).store positionId = none ∧
    ∀ u ∈ (del st positionId requesterId f).store.users,
      u.id = requesterId → positionId ∉ u.positions := by
  rcases del_cases st positionId requesterId f with
    h1 | ⟨_, h1⟩ | ⟨p, hp, ho, h1⟩ | ⟨p, owner, hp, ho, hne, h1⟩ |
    ⟨p, owner, hp, ho, hid, h1⟩ | ⟨p, owner, hp, ho, hid, htx, h1⟩
  · rw [h1] at h; simp at h
  · rw [h1] at h; simp at h
  · rw [h1] at h; simp at h
  · rw [h1] at h; simp at h
  · rw [h1] at h; simp at h
  · rw [h1] at h ⊢
    simp only [Option.some.injEq, Http.jsonMsg.injEq] at h
    obtain ⟨hs, hm⟩ := h
    refine ⟨hs.symm, hm.symm, ?_, ?_⟩
    · apply List.find?_eq_none.mpr
      intro q hq
      obtain ⟨_, hqne⟩ := List.mem_filter.mp hq
      simpa using hqne
    · intro u hu hu'
      unfold pullUser at hu
      obtain ⟨v, hv, rfl⟩ := List.mem_map.mp hu
      by_cases hc : (v.id == owner.id) = true
      · rw [if_pos hc] at hu' ⊢
        intro hmem
        obtain ⟨_, hne'⟩ := List.mem_filter.mp hmem
        simp at hne'
      · rw [if_neg hc] at hu' ⊢
        exact absurd (beq_iff_eq.mpr (hu'.trans hid.symm)) hc

/-- Witness for C4: user u1 deletes position p1 from the sample store. -/
theorem del_success_spec_witness :
    200 = 200 ∧ "Deleted position." = "Deleted position." ∧
    findPosition (del sampleStore "p1" "u1" noFaults).store "p1" = none ∧
    ∀ u ∈ (del sampleStore "p1" "u1" noFaults).store.users,
      u.id = "u1" → "p1" ∉ u.positions :=
  del_success_spec sampleStore "p1" "u1" noFaults 200 "Deleted position." (by decide)

/-- C5 (code slip): a well-formed update aimed at a position id with no
document behind it produces no HTTP response at all: the missing null check
after `Position.findById` makes `position.creator` throw a TypeError, instead
of the "not found"/server-error condition the spec requires. -/
theorem update_missing_position_crashes :
    update sampleStore "p404" "Cafe" "Nice spot downtown" "u1" noFaults =
      ⟨sampleStore, none, true, [StoreOp.findPos "p404"]⟩ := by
  decide

/-- C6: when the requester is not the position's creator, both update and del
answer 401, leave every document unchanged, and the position is still
retrievable afterward. -/
theorem unauthorized_update_del_no_mutation
    (st : Store) (positionId title description requesterId : String) (f : Faults)
    (p : Position)
    (hval : updateValid title description = true)
    (hfind : f.findPositionThrows = false)
    (hp : findPosition st positionId = some p)
    (hcr : p.creator ≠ requesterId) :
    update st positionId title description requesterId f =
      ⟨st, some (.error 401 "You are not allowed to edit this position."), false,
        [.findPos positionId]⟩ ∧
    (getPositionById (update st positionId title description requesterId f).store
      positionId f).response = some (Http.json 200 [p]) ∧
    ∀ owner, findUser st p.creator = some owner →
      (del st positionId requesterId f =
        ⟨st, some (.error 401 "You are not allowed to delete this position."), false,
          [.findPos positionId]⟩ ∧
      (getPositionById (del st positionId requesterId f).store positionId f).response =
        some (Http.json 200 [p])) := by
  have hcrb : (p.creator != requesterId) = true := by simpa using hcr
  have hupd : update st positionId title description requesterId f =
      ⟨st, some (.error 401 "You are not allowed to edit this position."), false,
        [.findPos positionId]⟩ := by
    simp [update, hval, hfind, hp, hcrb]
  refine ⟨hupd, ?_, ?_⟩
  · rw [hupd]
    simp [getPositionById, hfind, hp]
  · intro owner ho
    have hob : (owner.id != requesterId) = true := by
      have hoid : owner.id = p.creator := (findUser_mem ho).2
      simpa [hoid] using hcr
    have hdel : del st positionId requesterId f =
        ⟨st, some (.error 401 "You are not allowed to delete this position."), false,
          [.findPos positionId]⟩ := by
      simp [del, hfind, hp, ho, hob]
    refine ⟨hdel, ?_⟩
    rw [hdel]
    simp [getPositionById, hfind, hp]

/-- Witness for C6: user u999 can neither update nor delete u1's position. -/
theorem unauthorized_update_del_no_mutation_witness :
    update sampleStore "p1" "Hack" "hacked text" "u999" noFaults =
      ⟨sampleStore, some (.error 401 "You are not allowed to edit this position."), false,
        [.findPos "p1"]⟩ ∧
    (getPositionById (update sampleStore "p1" "Hack" "hacked text" "u999" noFaults).store
      "p1" noFaults).response = some (Http.json 200 [samplePos]) ∧
    del sampleStore "p1" "u999" noFaults =
      ⟨sampleStore, some (.error 401 "You are not allowed to delete this position."), false,
        [.findPos "p1"]⟩ ∧
    (getPositionById (del sampleStore "p1" "u999" noFaults).store "p1" noFaults).response =
      some (Http.json 200 [samplePos]) :=
  let h := unauthorized_update_del_no_mutation sampleStore "p1" "Hack" "hacked text"
    "u999" noFaults samplePos (by decide) (by decide) (by decide) (by decide)
  ⟨h.1, h.2.1, (h.2.2 sampleUser (by decide)).1, (h.2.2 sampleUser (by decide)).2⟩

/-- C7: a successful update answers 200 and changes only the targeted
position's title and description: its address, location, image, creator and id
are unchanged, every other position is untouched, and no user document moves. -/
theorem update_success_frame
    (st : Store) (positionId title description requesterId : String) (f : Faults)
    (s : Nat) (body : List Position)
    (h : (update st positionId title description requesterId f).response
      = some (Http.json s body)) :
    s = 200 ∧
    (update st positionId title description requesterId f).store.users = st.users ∧
    List.Forall₂ (fun pre post =>
        post.address = pre.address ∧ post.location = pre.location ∧
        post.image = pre.image ∧ post.creator = pre.creator ∧ post.id = pre.id ∧
        (pre.id ≠ positionId → post = pre))
      st.positions
      (update st positionId title description requesterId f).store.positions := by
  rcases update_cases st positionId title description requesterId f with
    h1 | h1 | ⟨hn, h1⟩ | ⟨p, hp, hcr, h1⟩ | ⟨p, hp, hcr, h1⟩ | ⟨p, hp, hcr, h1⟩
  · rw [h1] at h; simp at h
  · rw [h1] at h; simp at h
  · rw [h1] at h; simp at h
  · rw [h1] at h; simp at h
  · rw [h1] at h; simp at h
  · rw [h1] at h ⊢
    simp only [Option.some.injEq, Http.json.injEq] at h
    refine ⟨h.1.symm, rfl, ?_⟩
    show List.Forall₂ _ st.positions (setPosition st.positions positionId title description)
    unfold setPosition
    rw [List.forall₂_map_right_iff, List.forall₂_same]
    intro q hq
    by_cases hc : (q.id == positionId) = true
    · rw [if_pos hc]
      exact ⟨rfl, rfl, rfl, rfl, rfl, fun hne => absurd (beq_iff_eq.mp hc) hne⟩
    · rw [if_neg hc]
      exact ⟨rfl, rfl, rfl, rfl, rfl, fun _ => rfl⟩

/-- Witness for C7: u1 successfully updates p1's title and description. -/
theorem update_success_frame_witness :
    200 = 200 ∧
    (update sampleStore "p1" "New title" "Updated text" "u1" noFaults).store.users =
      sampleStore.users ∧
    List.Forall₂ (fun pre post =>
        post.address = pre.address ∧ post.location = pre.location ∧
        post.image = pre.image ∧ post.creator = pre.creator ∧ post.id = pre.id ∧
        (pre.id ≠ "p1" → post = pre))
      sampleStore.positions
      (update sampleStore "p1" "New title" "Updated text" "u1" noFaults).store.positions :=
  update_success_frame sampleStore "p1" "New title" "Updated text" "u1" noFaults 200
    [⟨"p1", "New title", "Updated text", "1 Main St", ⟨40, -73⟩,
      "uploads/images/p1.png", "u1"⟩] (by decide)

/-- C8: an empty title or a description shorter than 5 characters makes both
create and update answer 422 with the store untouched and no store operation
issued at all. -/
theorem invalid_input_rejected
    (st : Store) (title description address imagePath requesterId newId positionId : String)
    (coords : Coord) (f : Faults)
    (hbad : title = "" ∨ description.length < 5) :
    create st title description address imagePath requesterId newId coords f =
      ⟨st, some (.error 422 "Invalid inputs passed, please check your data."), false, []⟩ ∧
    update st positionId title description requesterId f =
      ⟨st, some (.error 422 "Invalid inputs passed, please check your data."), false, []⟩ := by
  have hval : updateValid title description = false := by
    rcases hbad with hb | hb
    · subst hb
      have he : ("" : String).isEmpty = true := rfl
      simp [updateValid, he]
    · have hd : decide (5 ≤ description.length) = false :=
        decide_eq_false (Nat.not_le.mpr hb)
      unfold updateValid
      rw [hd]
      simp
  have hval2 : createValid title description address = false := by
    rcases hbad with hb | hb
    · subst hb
      have he : ("" : String).isEmpty = true := rfl
      simp [createValid, he]
    · have hd : decide (5 ≤ description.length) = false :=
        decide_eq_false (Nat.not_le.mpr hb)
      unfold createValid
      rw [hd]
      simp
  constructor
  · unfold create
    rw [hval2]
    exact rfl
  · unfold update
    rw [hval]
    exact rfl

/-- Witness for C8: an empty title is rejected by create and update. -/
theorem invalid_input_rejected_witness :
    create sampleStore "" "A nice bar" "2 Main St" "uploads/images/p2.png" "u1" "p2"
      ⟨1, 2⟩ noFaults =
      ⟨sampleStore, some (.error 422 "Invalid inputs passed, please check your data."),
        false, []⟩ ∧
    update sampleStore "p1" "" "A nice bar" "u1" noFaults =
      ⟨sampleStore, some (.error 422 "Invalid inputs passed, please check your data."),
        false, []⟩ :=
  invalid_input_rejected sampleStore "" "A nice bar" "2 Main St" "uploads/images/p2.png"
    "u1" "p2" "p1" ⟨1, 2⟩ noFaults (Or.inl rfl)

/-- C9 (code slip): when the image unlink fails after the delete transaction
committed, the 200 response is still sent, but the rethrow inside the unlink
callback escapes as an uncaught exception and crashes the process, contrary
to the required non-fatal behavior. -/
theorem del_unlink_failure_crashes :
    (del sampleStore "p1" "u1" unlinkFault).response =
      some (Http.jsonMsg 200 "Deleted position.") ∧
    (del sampleStore "p1" "u1" unlinkFault).crashed = true := by
  decide

/-- C10: a successful create rewrites only the requester's user document,
which keeps all previously owned position ids and gains exactly the new one;
every other user document is unchanged. -/
theorem create_success_user_frame
    (st : Store) (title description address imagePath requesterId newId : String)
    (coords : Coord) (f : Faults) (s : Nat) (body : List Position)
    (h : (create st title description address imagePath requesterId newId coords f).response
      = some (Http.json s body)) :
    List.Forall₂ (fun pre post =>
        (pre.id = requesterId → post = User.mk pre.id (pre.positions ++ [newId])) ∧
        (pre.id ≠ requesterId → post = pre))
      st.users
      (create st title description address imagePath requesterId newId coords f).store.users := by
  rcases create_cases st title description address imagePath requesterId newId coords f
    with h1 | h1 | h1 | h1 | h1 | ⟨u, hu, htx, h1⟩
  · rw [h1] at h; simp at h
  · rw [h1] at h; simp at h
  · rw [h1] at h; simp at h
  · rw [h1] at h; simp at h
  · rw [h1] at h; simp at h
  · rw [h1]
    show List.Forall₂ _ st.users (pushUser st.users requesterId newId)
    unfold pushUser
    rw [List.forall₂_map_right_iff, List.forall₂_same]
    intro v hv
    by_cases hc : (v.id == requesterId) = true
    · exact ⟨fun _ => by rw [if_pos hc], fun hne => absurd (beq_iff_eq.mp hc) hne⟩
    · exact ⟨fun heq => absurd (beq_iff_eq.mpr heq) hc, fun _ => by rw [if_neg hc]⟩

/-- Witness for C10: u1 creates p2; u1 keeps p1 and gains p2. -/
theorem create_success_user_frame_witness :
    List.Forall₂ (fun pre post =>
        (pre.id = "u1" → post = User.mk pre.id (pre.positions ++ ["p2"])) ∧
        (pre.id ≠ "u1" → post = pre))
      sampleStore.users
      (create sampleStore "Bar" "A nice bar" "2 Main St" "uploads/images/p2.png"
        "u1" "p2" ⟨1, 2⟩ noFaults).store.users :=
  create_success_user_frame sampleStore "Bar" "A nice bar" "2 Main St"
    "uploads/images/p2.png" "u1" "p2" ⟨1, 2⟩ noFaults 201
    [⟨"p2", "Bar", "A nice bar", "2 Main St", ⟨1, 2⟩, "uploads/images/p2.png", "u1"⟩]
    (by decide)

end Positions
